import Mathlib

/-!
# Verification of the blog_os kernel core against its specification

Shallow embedding of the priority scheduler / priority-inheritance locks
(src/task/executor.rs), the keyboard scancode stream (src/task/keyboard.rs,
src/interrupts.rs) and the simple filesystem (src/fs/simple_fs.rs,
src/fs/layout.rs), together with theorems settling the spec claims.

Machine integers are modelled as `Nat` (u8 values stay below 256 by the
source's own saturation checks; on-disk fields carry explicit bounds where
round-trips need them).  `BTreeMap` is modelled as an association list,
`BinaryHeap<Reverse<(u8, TaskId)>>` as a multiset (list) of pairs popped at
the lexicographic minimum, and a Rust panic (`unwrap` / `expect` / explicit
`panic!`) as `Option.none`.
-/

set_option maxRecDepth 4000

namespace BlogOS

/-- `BTreeMap::get`: first binding of the key in the association list. -/
def lookupA {β : Type} : List (Nat × β) → Nat → Option β
  | [], _ => none
  | p :: rest, k => if p.1 = k then some p.2 else lookupA rest k

/-- Association-list update mirroring `BTreeMap::get_mut` followed by a field
assignment: every binding of key `k` is rewritten to `v`, other keys are
untouched.  (The kernel's maps have unique keys, where this agrees with the
Rust map exactly.) -/
def setA {β : Type} (l : List (Nat × β)) (k : Nat) (v : β) : List (Nat × β) :=
  l.map (fun p => if p.1 = k then (k, v) else p)

/-- `TaskMetadata` from src/task/mod.rs: base priority, dynamic priority and
the list of lock ids held. -/
structure TaskMetadata where
  base_priority : Nat
  dyn_priority : Nat
  locks_held : List Nat
  deriving Repr, DecidableEq

/-- `PriLock` from src/task/pinh.rs as used by the executor: current owner and
FIFO-appended waiters (the unused `resource` field is omitted). -/
structure PriLock where
  owner : Option Nat
  waiters : List Nat
  deriving Repr, DecidableEq

/-- The executor state from src/task/executor.rs.  Task futures live outside
the state: `run_ready_tasks` takes the poll outcome as a function.
`waker_cache` keeps only the set of task ids that own a cached waker. -/
structure Executor where
  tasks : List (Nat × TaskMetadata)
  task_queue : List (Nat × Nat)
  waker_cache : List Nat
  locks : List (Nat × PriLock)
  deriving Repr, DecidableEq

/-- Lexicographic order on `(dyn_priority, task_id)` pairs; `pop` on
`BinaryHeap<Reverse<(u8, TaskId)>>` returns the least pair in this order. -/
def pairLe (a b : Nat × Nat) : Bool :=
  a.1 < b.1 || (a.1 = b.1 && a.2 ≤ b.2)

/-- Least entry of the heap contents, if any. -/
def heapMin : List (Nat × Nat) → Option (Nat × Nat)
  | [] => none
  | x :: xs =>
    match heapMin xs with
    | none => some x
    | some m => some (if pairLe x m then x else m)

/-- `BinaryHeap<Reverse<(u8, TaskId)>>::pop`: removes and returns the
lexicographically least `(dyn_priority, task_id)` entry. -/
def heapPop (q : List (Nat × Nat)) : Option ((Nat × Nat) × List (Nat × Nat)) :=
  match heapMin q with
  | none => none
  | some m => some (m, q.erase m)

/-- `Executor::spawn`: insert the task (panicking on a duplicate id) and push
`(base_priority, task_id)` onto the ready queue. -/
def spawn (e : Executor) (task_id base : Nat) : Option Executor :=
  if (lookupA e.tasks task_id).isSome then
    none
  else
    some { e with
      tasks := e.tasks ++ [(task_id, ⟨base, base, []⟩)],
      task_queue := e.task_queue ++ [(base, task_id)] }

/-- `TaskWaker::wake_task`: pushes `(0, task_id)` onto the ready queue. -/
def wake_task (e : Executor) (task_id : Nat) : Executor :=
  { e with task_queue := e.task_queue ++ [(0, task_id)] }

/-- `Executor::acquire_lock` from src/task/executor.rs lines 98-140.
`none` models a panic (missing task or `expect("Invalid LockId")`). -/
def acquire_lock (e : Executor) (task_id lock_id : Nat) : Option Executor :=
  match lookupA e.tasks task_id with
  | none => none
  | some tmeta =>
    match lookupA e.locks lock_id with
    | none => none
    | some lock =>
      match lock.owner with
      | some owner_id =>
        if owner_id ≠ task_id then
          match lookupA e.tasks owner_id with
          | none => none
          | some owner =>
            some { e with
              locks := setA e.locks lock_id
                { lock with waiters := lock.waiters ++ [task_id] },
              tasks := setA e.tasks owner_id
                { owner with
                  dyn_priority := max owner.dyn_priority tmeta.dyn_priority },
              task_queue := e.task_queue ++
                [(max owner.dyn_priority tmeta.dyn_priority, owner_id)] }
        else
          some e
      | none =>
        some { e with
          locks := setA e.locks lock_id { lock with owner := some task_id },
          tasks := setA e.tasks task_id
            { tmeta with locks_held := tmeta.locks_held ++ [lock_id] },
          task_queue := e.task_queue ++ [(tmeta.dyn_priority, task_id)] }

/-- The waiter-priority sweep of `max_by_key` inside `release_lock`: look up
every waiter's dyn_priority, panicking (`none`) on an unknown id. -/
def dynsOf (e : Executor) : List Nat → Option (List Nat)
  | [] => some []
  | w :: rest =>
    match lookupA e.tasks w with
    | none => none
    | some m =>
      match dynsOf e rest with
      | none => none
      | some ps => some (m.dyn_priority :: ps)

/-- The priority-recomputation loop of `Executor::release_lock` (lines
153-174): starting from `base_priority`, fold over the held locks, skipping
the released one, raising the accumulator to the highest waiter priority of
each other lock (locks without waiters contribute nothing). -/
def release_fold (e : Executor) (lock_id : Nat) : List Nat → Nat → Option Nat
  | [], acc => some acc
  | other :: rest, acc =>
    if other = lock_id then
      release_fold e lock_id rest acc
    else
      match lookupA e.locks other with
      | none => none
      | some ol =>
        match dynsOf e ol.waiters with
        | none => none
        | some ps =>
          release_fold e lock_id rest
            (if ps.foldl max 0 > acc ∧ ps ≠ [] then ps.foldl max 0 else acc)

/-- `Executor::release_lock` from src/task/executor.rs lines 142-196.
Releasing a lock one does not own is a panic (`none`).  The successor owner is
taken with `Vec::pop`, i.e. the **last** element of `waiters`. -/
def release_lock (e : Executor) (task_id lock_id : Nat) : Option Executor :=
  match lookupA e.locks lock_id with
  | none => none
  | some lock =>
    if lock.owner ≠ some task_id then
      none
    else
      match lookupA e.tasks task_id with
      | none => none
      | some meta =>
        match release_fold e lock_id meta.locks_held meta.base_priority with
        | none => none
        | some new_priority =>
          let tasks1 := setA e.tasks task_id
            { meta with
              dyn_priority := new_priority,
              locks_held := meta.locks_held.filter (· ≠ lock_id) }
          match lock.waiters.getLast? with
          | some waiter_id =>
            match lookupA tasks1 waiter_id with
            | none => none
            | some w =>
              some { e with
                tasks := setA tasks1 waiter_id
                  { w with locks_held := w.locks_held ++ [lock_id] },
                locks := setA e.locks lock_id
                  { lock with
                    owner := some waiter_id,
                    waiters := lock.waiters.dropLast },
                task_queue := e.task_queue ++ [(w.dyn_priority, waiter_id)] }
          | none =>
            some { e with
              tasks := tasks1,
              locks := setA e.locks lock_id { lock with owner := none } }

/-- `Executor::age_priorities`: bump every task's dynamic priority by one,
saturating at 255. -/
def age_priorities (e : Executor) : Executor :=
  { e with
    tasks := e.tasks.map (fun p =>
      (p.1, if p.2.dyn_priority < 255
        then { p.2 with dyn_priority := p.2.dyn_priority + 1 }
        else p.2)) }

/-- Releasing every lock a completed task still holds (the `Poll::Ready` arm
of `run_ready_tasks`). -/
def release_all (task_id : Nat) : List Nat → Executor → Option Executor
  | [], e => some e
  | l :: rest, e =>
    match release_lock e task_id l with
    | none => none
    | some e' => release_all task_id rest e'

/-- One scheduling cycle, `Executor::run_ready_tasks` (lines 228-272): age,
pop the queue, look the task up (`unwrap` — a stale id is a panic, `none`),
cache a waker, poll (outcome supplied by `poll`), and on completion release
all held locks and drop the task and its waker.  Returns the resulting state
together with the id of the polled task, if any. -/
def run_ready_tasks (poll : Nat → Bool) (e : Executor) :
    Option (Executor × Option Nat) :=
  let e := age_priorities e
  match heapPop e.task_queue with
  | none => some (e, none)
  | some ((_, task_id), q') =>
    let e1 := { e with task_queue := q' }
    match lookupA e1.tasks task_id with
    | none => none
    | some t =>
      let e2 := { e1 with
        waker_cache :=
          if e1.waker_cache.contains task_id then e1.waker_cache
          else e1.waker_cache ++ [task_id] }
      if poll task_id then
        let e3 := { e2 with
          tasks := setA e2.tasks task_id { t with locks_held := [] } }
        match release_all task_id t.locks_held e3 with
        | none => none
        | some e4 =>
          some ({ e4 with
            tasks := e4.tasks.filter (fun p => p.1 ≠ task_id),
            waker_cache := e4.waker_cache.filter (· ≠ task_id) }, some task_id)
      else
        some (e2, some task_id)

/-- A poll function under which every task stays pending. -/
def pollPending : Nat → Bool := fun _ => false

/-- The scheduler state of claim C1: task A (id 1) with priority 200 and task
B (id 2) with priority 10, both spawned and hence both in the ready queue. -/
def exC1 : Executor :=
  { tasks := [(1, ⟨200, 200, []⟩), (2, ⟨10, 10, []⟩)],
    task_queue := [(200, 1), (10, 2)],
    waker_cache := [],
    locks := [] }

/-- C1: the claim says that with A (dyn_priority 200) and B (dyn_priority 10)
both ready, a single `run_ready_tasks` cycle polls A before B, the pick step
popping the **highest**-priority entry.  The code stores `Reverse`-wrapped
entries in the max-heap, so `pop` returns the **lowest** `(dyn_priority,
task_id)` pair: on the C1 state the cycle polls B (id 2), not A. -/
theorem C1_cycle_polls_lowest_priority_first :
    (run_ready_tasks pollPending exC1).map (·.2) = some (some 2) := by
  decide

/-- The executor state of claim C5: the ready queue holds a stale entry
`(0, 7)` (as left by a waker firing after task 7 completed) while task 7 is
gone from the task map. -/
def exC5 : Executor :=
  { tasks := [], task_queue := [(0, 7)], waker_cache := [], locks := [] }

/-- C5: the claim says a popped entry whose task no longer exists is skipped
without panicking.  The code instead calls `self.tasks.get(&task_id).unwrap()`
on the popped id, so the cycle panics (modelled as `none`) on the stale
entry. -/
theorem C5_stale_entry_panics :
    run_ready_tasks pollPending exC5 = none := by
  decide

theorem setA_cons {β : Type} (p : Nat × β) (rest : List (Nat × β))
    (k : Nat) (v : β) :
    setA (p :: rest) k v = (if p.1 = k then (k, v) else p) :: setA rest k v :=
  rfl

/-- Updating key `k` makes it look up to the new value (provided it was
bound before, as it is at every `get_mut` site). -/
theorem lookup_setA_self {β : Type} {l : List (Nat × β)} {k : Nat} (v : β)
    (h : (lookupA l k).isSome) : lookupA (setA l k v) k = some v := by
  induction l with
  | nil => simp [lookupA] at h
  | cons p rest ih =>
    by_cases hak : p.1 = k
    · rw [setA_cons, if_pos hak, lookupA]
      simp
    · rw [lookupA, if_neg hak] at h
      rw [setA_cons, if_neg hak, lookupA, if_neg hak]
      exact ih h

/-- Updating key `k` leaves every other key's binding unchanged. -/
theorem lookup_setA_other {β : Type} (l : List (Nat × β)) (k : Nat) (v : β)
    {k' : Nat} (h : k' ≠ k) : lookupA (setA l k v) k' = lookupA l k' := by
  induction l with
  | nil => simp [setA, lookupA]
  | cons p rest ih =>
    by_cases hak : p.1 = k
    · have hkk : ¬ (k = k') := fun hc => h hc.symm
      rw [setA_cons, if_pos hak, lookupA, lookupA, if_neg hkk, hak,
        if_neg hkk, ih]
    · rw [setA_cons, if_neg hak, lookupA, lookupA, ih]

/-- Dynamic priority of a task id in a state (0 when the id is unknown). -/
def dynOf (e : Executor) (t : Nat) : Nat :=
  ((lookupA e.tasks t).map (·.dyn_priority)).getD 0

/-- Highest waiter dyn_priority registered on one lock (0 when the lock is
unknown or has no waiters). -/
def lockWaiterMax (e : Executor) (l : Nat) : Nat :=
  ((((lookupA e.locks l).map (·.waiters)).getD []).map (dynOf e)).foldl max 0

/-- The ceiling stated by the spec for the releaser's recomputed priority:
`max(base_priority, highest waiter dyn_priority across all OTHER locks still
held)`, written from the spec's words. -/
def specReleaseCeiling (e : Executor) (X : Nat) (meta : TaskMetadata) : Nat :=
  max meta.base_priority
    (((meta.locks_held.filter (· ≠ X)).map (lockWaiterMax e)).foldl max 0)

theorem foldl_max_comm (l : List Nat) : ∀ a b : Nat,
    l.foldl max (max a b) = max a (l.foldl max b) := by
  induction l with
  | nil => intro a b; rfl
  | cons c t ih =>
    intro a b
    have hassoc : max (max a b) c = max a (max b c) := Nat.max_assoc a b c
    simp only [List.foldl_cons, hassoc, ih]

theorem foldl_max_zero_cons (a : Nat) (l : List Nat) :
    (a :: l).foldl max 0 = max a (l.foldl max 0) := by
  have h0 : max 0 a = max a 0 := Nat.max_comm 0 a
  simp only [List.foldl_cons, h0, foldl_max_comm]

/-- A successful waiter sweep returns exactly the `dynOf`-image of the id
list. -/
theorem dynsOf_eq_map (e : Executor) :
    ∀ (ws ps : List Nat), dynsOf e ws = some ps → ps = ws.map (dynOf e) := by
  intro ws
  induction ws with
  | nil =>
    intro ps h
    simp only [dynsOf, Option.some_inj] at h
    simp [← h]
  | cons w rest ih =>
    intro ps h
    rw [dynsOf] at h
    cases hm : lookupA e.tasks w with
    | none =>
      simp only [hm] at h
      exact Option.noConfusion h
    | some m =>
      simp only [hm] at h
      cases hrest : dynsOf e rest with
      | none =>
        simp only [hrest] at h
        exact Option.noConfusion h
      | some ps' =>
        simp only [hrest, Option.some_inj] at h
        subst h
        have hd : dynOf e w = m.dyn_priority := by simp [dynOf, hm]
        simp [hd, ih ps' hrest]

/-- The source's priority-recomputation fold never rises above the spec's
ceiling built from `lockWaiterMax`. -/
theorem release_fold_le (e : Executor) (X : Nat) :
    ∀ (held : List Nat) (acc v : Nat),
      release_fold e X held acc = some v →
      v ≤ max acc (((held.filter (· ≠ X)).map (lockWaiterMax e)).foldl max 0) := by
  intro held
  induction held with
  | nil =>
    intro acc v h
    simp only [release_fold, Option.some_inj] at h
    simp [← h]
  | cons other rest ih =>
    intro acc v h
    rw [release_fold] at h
    by_cases hx : other = X
    · rw [if_pos hx] at h
      have hrec := ih acc v h
      have hfil : (other :: rest).filter (· ≠ X) = rest.filter (· ≠ X) := by
        simp [List.filter_cons, hx]
      rw [hfil]
      exact hrec
    · rw [if_neg hx] at h
      cases hol : lookupA e.locks other with
      | none =>
        simp only [hol] at h
        exact Option.noConfusion h
      | some ol =>
        simp only [hol] at h
        cases hps : dynsOf e ol.waiters with
        | none =>
          simp only [hps] at h
          exact Option.noConfusion h
        | some ps =>
          simp only [hps] at h
          have hpseq := dynsOf_eq_map e ol.waiters ps hps
          have hlwm : lockWaiterMax e other = ps.foldl max 0 := by
            simp [lockWaiterMax, hol, hpseq]
          have hrec := ih _ v h
          have hfil : (other :: rest).filter (· ≠ X) =
              other :: rest.filter (· ≠ X) := by
            simp [List.filter_cons, hx]
          rw [hfil, List.map_cons, foldl_max_zero_cons, hlwm]
          split at hrec <;> omega

/-- C2: with L owning lock X and a higher-priority H acquiring it, H is
appended to X's waiters and not enqueued (the only new ready-queue entry is
L's re-push), and L's dyn_priority is boosted to at least H's; and any later
successful `release_lock(L, X)` leaves L's dyn_priority at or below
`max(base_priority, highest waiter dyn_priority across all other held
locks)`. -/
theorem C2_priority_inheritance
    (e : Executor) (L H X : Nat) (lm hm : TaskMetadata) (lk : PriLock)
    (hH : lookupA e.tasks H = some hm)
    (hL : lookupA e.tasks L = some lm)
    (hX : lookupA e.locks X = some lk)
    (hown : lk.owner = some L)
    (hne : L ≠ H)
    (hhigh : lm.dyn_priority < hm.dyn_priority) :
    (∃ e', acquire_lock e H X = some e' ∧
      lookupA e'.locks X = some { lk with waiters := lk.waiters ++ [H] } ∧
      e'.task_queue = e.task_queue ++ [(max lm.dyn_priority hm.dyn_priority, L)] ∧
      ∃ lm', lookupA e'.tasks L = some lm' ∧ hm.dyn_priority ≤ lm'.dyn_priority) ∧
    (∀ (e₂ e₃ : Executor) (m₂ m₃ : TaskMetadata),
      lookupA e₂.tasks L = some m₂ →
      release_lock e₂ L X = some e₃ →
      lookupA e₃.tasks L = some m₃ →
      m₃.dyn_priority ≤ specReleaseCeiling e₂ X m₂) := by
  constructor
  · refine ⟨{ e with
        locks := setA e.locks X { lk with waiters := lk.waiters ++ [H] },
        tasks := setA e.tasks L
          { lm with dyn_priority := max lm.dyn_priority hm.dyn_priority },
        task_queue := e.task_queue ++
          [(max lm.dyn_priority hm.dyn_priority, L)] }, ?_, ?_, rfl, ?_⟩
    · have hne' : L ≠ H := hne
      simp only [acquire_lock, hH, hX, hown, ne_eq]
      rw [if_pos (fun hc : L = H => hne hc)]
      simp only [hL]
    · exact lookup_setA_self _ (by rw [hX]; rfl)
    · refine ⟨_, lookup_setA_self _ (by rw [hL]; rfl), ?_⟩
      simp
  · intro e₂ e₃ m₂ m₃ hm₂ hrel hm₃
    rw [release_lock] at hrel
    cases hlk : lookupA e₂.locks X with
    | none =>
      simp only [hlk] at hrel
      exact Option.noConfusion hrel
    | some lk₂ =>
      simp only [hlk] at hrel
      by_cases hoc : lk₂.owner = some L
      · have hocne : ¬ (lk₂.owner ≠ some L) := by simp [hoc]
        rw [if_neg hocne, hm₂] at hrel
        cases hv : release_fold e₂ X m₂.locks_held m₂.base_priority with
        | none =>
          simp only [hv] at hrel
          exact Option.noConfusion hrel
        | some v =>
          simp only [hv] at hrel
          have hvle := release_fold_le e₂ X m₂.locks_held m₂.base_priority v hv
          have hm₂' : lookupA (setA e₂.tasks L
              { m₂ with dyn_priority := v,
                        locks_held := m₂.locks_held.filter (· ≠ X) }) L =
              some { m₂ with dyn_priority := v,
                             locks_held := m₂.locks_held.filter (· ≠ X) } :=
            lookup_setA_self _ (by rw [hm₂]; rfl)
          have hdyn : m₃.dyn_priority = v := by
            cases hlast : lk₂.waiters.getLast? with
            | none =>
              simp only [hlast, Option.some_inj] at hrel
              subst hrel
              simp only at hm₃
              rw [hm₂'] at hm₃
              cases hm₃
              rfl
            | some w =>
              simp only [hlast] at hrel
              cases hw : lookupA (setA e₂.tasks L
                  { m₂ with dyn_priority := v,
                            locks_held := m₂.locks_held.filter (· ≠ X) }) w with
              | none =>
                simp only [hw] at hrel
                exact Option.noConfusion hrel
              | some wmeta =>
                simp only [hw, Option.some_inj] at hrel
                subst hrel
                simp only at hm₃
                by_cases hwL : w = L
                · subst hwL
                  rw [hm₂'] at hw
                  cases hw
                  rw [lookup_setA_self _ (by rw [hm₂']; rfl)] at hm₃
                  cases hm₃
                  rfl
                · rw [lookup_setA_other _ _ _
                    (fun hc : L = w => hwL hc.symm)] at hm₃
                  rw [hm₂'] at hm₃
                  cases hm₃
                  rfl
          rw [hdyn]
          exact hvle
      · rw [if_pos hoc] at hrel
        exact Option.noConfusion hrel

/-- Closed instance of the C2 theorem: L = task 0 (base 10) owns lock 5,
H = task 1 (priority 200) acquires it. -/
theorem C2_priority_inheritance_witness :
    (∃ e', acquire_lock
        { tasks := [(0, ⟨10, 10, [5]⟩), (1, ⟨200, 200, []⟩)],
          task_queue := [], waker_cache := [],
          locks := [(5, ⟨some 0, []⟩)] } 1 5 = some e' ∧
      lookupA e'.locks 5 = some { owner := some 0, waiters := [] ++ [1] } ∧
      e'.task_queue = [] ++ [(max 10 200, 0)] ∧
      ∃ lm', lookupA e'.tasks 0 = some lm' ∧ 200 ≤ lm'.dyn_priority) ∧
    (∀ (e₂ e₃ : Executor) (m₂ m₃ : TaskMetadata),
      lookupA e₂.tasks 0 = some m₂ →
      release_lock e₂ 0 5 = some e₃ →
      lookupA e₃.tasks 0 = some m₃ →
      m₃.dyn_priority ≤ specReleaseCeiling e₂ 5 m₂) :=
  C2_priority_inheritance
    { tasks := [(0, ⟨10, 10, [5]⟩), (1, ⟨200, 200, []⟩)],
      task_queue := [], waker_cache := [],
      locks := [(5, ⟨some 0, []⟩)] }
    0 1 5 ⟨10, 10, [5]⟩ ⟨200, 200, []⟩ ⟨some 0, []⟩
    (by decide) (by decide) (by decide) (by decide) (by decide) (by decide)

/-- The executor state refuting C3: task 0 owns lock 5; waiter 1
(dyn_priority 5) was appended before waiter 2 (dyn_priority 3). -/
def exC3 : Executor :=
  { tasks := [(0, ⟨7, 7, [5]⟩), (1, ⟨5, 5, []⟩), (2, ⟨3, 3, []⟩)],
    task_queue := [], waker_cache := [],
    locks := [(5, ⟨some 0, [1, 2]⟩)] }

/-- Counterexample to C3 as stated: on release the new owner is waiter 2,
whose dyn_priority (3) is strictly below fellow waiter 1's (5) — the chosen
waiter is not the highest-priority one (nor the FIFO-first one). -/
theorem C3_counterexample :
    ((release_lock exC3 0 5).map (fun e' => (lookupA e'.locks 5).map (·.owner)))
      = some (some (some 2)) ∧
    dynOf exC3 2 < dynOf exC3 1 := by
  decide

/-- C3 (amended): the waiter chosen as the new owner is the **last** element
of the waiters vector (`Vec::pop` — the most recently appended waiter,
regardless of priority); the chosen waiter has the lock id appended to its
`locks_held` and is pushed onto the ready queue at its current
dyn_priority. -/
theorem C3_release_picks_last_waiter
    (e : Executor) (T X w : Nat) (lk : PriLock) (wm : TaskMetadata)
    (e' : Executor)
    (hX : lookupA e.locks X = some lk)
    (hlast : lk.waiters.getLast? = some w)
    (hrel : release_lock e T X = some e')
    (hwm : lookupA e.tasks w = some wm)
    (hwT : w ≠ T) :
    (lookupA e'.locks X).map (·.owner) = some (some w) ∧
    lookupA e'.tasks w = some { wm with locks_held := wm.locks_held ++ [X] } ∧
    e'.task_queue = e.task_queue ++ [(wm.dyn_priority, w)] := by
  rw [release_lock] at hrel
  simp only [hX] at hrel
  by_cases hoc : lk.owner = some T
  · have hocne : ¬ (lk.owner ≠ some T) := by simp [hoc]
    rw [if_neg hocne] at hrel
    cases hm : lookupA e.tasks T with
    | none =>
      simp only [hm] at hrel
      exact Option.noConfusion hrel
    | some m =>
      simp only [hm] at hrel
      cases hv : release_fold e X m.locks_held m.base_priority with
      | none =>
        simp only [hv] at hrel
        exact Option.noConfusion hrel
      | some v =>
        simp only [hv, hlast] at hrel
        have hwlook : lookupA (setA e.tasks T
            { m with dyn_priority := v,
                     locks_held := m.locks_held.filter (· ≠ X) }) w =
            some wm := by
          rw [lookup_setA_other _ _ _ hwT]
          exact hwm
        rw [hwlook] at hrel
        simp only [Option.some_inj] at hrel
        subst hrel
        refine ⟨?_, ?_, rfl⟩
        · rw [lookup_setA_self _ (by rw [hX]; rfl)]
          rfl
        · exact lookup_setA_self _ (by rw [hwlook]; rfl)
  · rw [if_pos hoc] at hrel
    exact Option.noConfusion hrel

/-- The state produced by `release_lock exC3 0 5`. -/
def exC3' : Executor :=
  { tasks := [(0, ⟨7, 7, []⟩), (1, ⟨5, 5, []⟩), (2, ⟨3, 3, [5]⟩)],
    task_queue := [(3, 2)], waker_cache := [],
    locks := [(5, ⟨some 2, [1]⟩)] }

/-- Closed instance of the amended C3 theorem at the `exC3` state. -/
theorem C3_release_picks_last_waiter_witness :
    (lookupA exC3'.locks 5).map (·.owner) = some (some 2) ∧
    lookupA exC3'.tasks 2 = some { base_priority := 3, dyn_priority := 3,
                                   locks_held := [] ++ [5] } ∧
    exC3'.task_queue = exC3.task_queue ++ [(3, 2)] :=
  C3_release_picks_last_waiter exC3 0 5 2 ⟨some 0, [1, 2]⟩ ⟨3, 3, []⟩ exC3'
    (by decide) (by decide) (by decide) (by decide) (by decide)

/-! ## Keyboard interrupt handler and scancode stream -/

/-- Observable actions of the keyboard interrupt handler
(src/interrupts.rs lines 122-166). -/
inductive KbdAction where
  | readPort (port : Nat)
  | decodeAndPrint
  | pushScancode (b : Nat)
  | wakeWaker
  | notifyEndOfInterrupt (vector : Nat)
  deriving Repr, DecidableEq

/-- `keyboard_interrupt_handler` from src/interrupts.rs as an action trace:
lock KEYBOARD, read the scancode once from port 0x60, decode it with
pc_keyboard and print the decoded character inline when one is produced
(`printsChar` abstracts the external decoder's outcome), then signal
end-of-interrupt for vector 33.  It never calls `add_scancode`. -/
def keyboard_interrupt_handler (printsChar : Bool) : List KbdAction :=
  [KbdAction.readPort 0x60] ++
    (if printsChar then [KbdAction.decodeAndPrint] else []) ++
    [KbdAction.notifyEndOfInterrupt 33]

/-- C4: the claim says the vector-33 handler reads port 0x60 exactly once,
pushes the scancode into the scancode queue, wakes the keyboard stream waker,
and signals end-of-interrupt.  The code reads the port once and signals EOI,
but it never pushes to `SCANCODE_QUEUE` and never wakes `SCANCODE_WAKER`
(it decodes and prints inline; `add_scancode` — whose doc comment says it is
called by this handler — is never called). -/
theorem C4_handler_reads_once_but_never_pushes_or_wakes (p : Bool) :
    ((keyboard_interrupt_handler p).count (KbdAction.readPort 0x60) = 1) ∧
    (∀ b : Nat, KbdAction.pushScancode b ∉ keyboard_interrupt_handler p) ∧
    (KbdAction.wakeWaker ∉ keyboard_interrupt_handler p) ∧
    (KbdAction.notifyEndOfInterrupt 33 ∈ keyboard_interrupt_handler p) := by
  cases p <;>
    refine ⟨rfl, fun b => ?_, by decide, by decide⟩ <;>
    simp [keyboard_interrupt_handler]

/-- The atomic steps of the one-producer / one-consumer scancode exchange:
the producer (`add_scancode`) pushes to the `ArrayQueue` and then wakes the
`AtomicWaker`; one consumer poll (`ScancodeStream::poll_next`) does the
fast-path pop, registers its waker, and re-pops before returning pending. -/
inductive ChanStep where
  | push
  | wakeW
  | pop1
  | registerW
  | pop2
  deriving Repr, DecidableEq

/-- Channel state: `ArrayQueue<u8>` contents (capacity 100), whether
`SCANCODE_WAKER` currently holds the consumer's waker, whether a `wake` has
hit a registered waker (so the executor will re-poll the consumer), and the
scancode returned by the poll, if it returned ready. -/
structure ChanState where
  queue : List Nat
  registered : Bool
  wokeWhileRegistered : Bool
  received : Option Nat
  deriving Repr, DecidableEq

/-- Effect of a single atomic step with scancode `sc`.  The poll steps are
guarded by `received.isNone`: once a pop has succeeded the poll has returned
ready and its remaining steps do not run.  `wakeW` is `AtomicWaker::wake`:
it takes the registered waker (if any) and wakes it.  `pop2` on success also
models the source's `SCANCODE_WAKER.take()`. -/
def chanStep (sc : Nat) (s : ChanState) : ChanStep → ChanState
  | ChanStep.push =>
    if s.queue.length < 100 then { s with queue := s.queue ++ [sc] } else s
  | ChanStep.wakeW =>
    if s.registered then
      { s with registered := false, wokeWhileRegistered := true }
    else s
  | ChanStep.pop1 =>
    if s.received.isNone then
      match s.queue with
      | [] => s
      | x :: rest => { s with queue := rest, received := some x }
    else s
  | ChanStep.registerW =>
    if s.received.isNone then { s with registered := true } else s
  | ChanStep.pop2 =>
    if s.received.isNone then
      match s.queue with
      | [] => s
      | x :: rest =>
        { s with queue := rest, received := some x, registered := false }
    else s

/-- Initial state: empty queue, no waker registered. -/
def chanInit : ChanState :=
  { queue := [], registered := false, wokeWhileRegistered := false,
    received := none }

def runChan (sc : Nat) (tr : List ChanStep) : ChanState :=
  tr.foldl (chanStep sc) chanInit

/-- The consumer eventually observes the scancode: either the poll itself
returned it, or the wake hit a registered waker — so the executor re-polls
the consumer and the re-poll's fast-path pop returns it from the queue. -/
def eventuallyObserves (sc : Nat) (tr : List ChanStep) : Bool :=
  let s := runChan sc tr
  match s.received with
  | some x => x == sc
  | none =>
    s.wokeWhileRegistered &&
      (match s.queue with
       | x :: _ => x == sc
       | [] => false)

/-- All interleavings of two step sequences (producer program merged into
consumer program in every order that keeps each side's own order), with a
step-count fuel so the recursion is structural; the fuel
`xs.length + ys.length` used below always suffices, as one list shrinks at
every recursive call. -/
def interleavingsF {α : Type} : Nat → List α → List α → List (List α)
  | 0, xs, ys => [xs ++ ys]
  | _ + 1, [], ys => [ys]
  | _ + 1, x :: xs, [] => [x :: xs]
  | fuel + 1, x :: xs, y :: ys =>
    (interleavingsF fuel xs (y :: ys)).map (x :: ·) ++
      (interleavingsF fuel (x :: xs) ys).map (y :: ·)

/-- All interleavings of two step sequences. -/
def interleavings {α : Type} (xs ys : List α) : List (List α) :=
  interleavingsF (xs.length + ys.length) xs ys

/-- The producer's steps in program order (`add_scancode`). -/
def producerSteps : List ChanStep := [ChanStep.push, ChanStep.wakeW]

/-- One consumer poll's steps in program order (`poll_next`). -/
def consumerSteps : List ChanStep :=
  [ChanStep.pop1, ChanStep.registerW, ChanStep.pop2]

/-- C9: for one producer push and one consumer poll, under every interleaving
of their atomic steps the pushed scancode is eventually observed by the
consumer — the re-pop after waker registration ensures a wake that begins
before the poll completes is never lost. -/
theorem C9_no_lost_wakeup (sc : Nat) :
    ∀ tr ∈ interleavings producerSteps consumerSteps,
      eventuallyObserves sc tr = true := by
  intro tr htr
  have hall : interleavings producerSteps consumerSteps =
      [[ChanStep.push, ChanStep.wakeW, ChanStep.pop1, ChanStep.registerW, ChanStep.pop2],
       [ChanStep.push, ChanStep.pop1, ChanStep.wakeW, ChanStep.registerW, ChanStep.pop2],
       [ChanStep.push, ChanStep.pop1, ChanStep.registerW, ChanStep.wakeW, ChanStep.pop2],
       [ChanStep.push, ChanStep.pop1, ChanStep.registerW, ChanStep.pop2, ChanStep.wakeW],
       [ChanStep.pop1, ChanStep.push, ChanStep.wakeW, ChanStep.registerW, ChanStep.pop2],
       [ChanStep.pop1, ChanStep.push, ChanStep.registerW, ChanStep.wakeW, ChanStep.pop2],
       [ChanStep.pop1, ChanStep.push, ChanStep.registerW, ChanStep.pop2, ChanStep.wakeW],
       [ChanStep.pop1, ChanStep.registerW, ChanStep.push, ChanStep.wakeW, ChanStep.pop2],
       [ChanStep.pop1, ChanStep.registerW, ChanStep.push, ChanStep.pop2, ChanStep.wakeW],
       [ChanStep.pop1, ChanStep.registerW, ChanStep.pop2, ChanStep.push, ChanStep.wakeW]] := by
    decide
  rw [hall] at htr
  fin_cases htr <;>
    simp [eventuallyObserves, runChan, chanStep, chanInit]

/-- Closed instance of C9 at scancode 0x1E on the fully-sequential
interleaving. -/
theorem C9_no_lost_wakeup_witness :
    eventuallyObserves 0x1E
      [ChanStep.push, ChanStep.wakeW, ChanStep.pop1, ChanStep.registerW,
       ChanStep.pop2] = true :=
  C9_no_lost_wakeup 0x1E
    [ChanStep.push, ChanStep.wakeW, ChanStep.pop1, ChanStep.registerW,
     ChanStep.pop2] (by decide)

/-! ## Simple filesystem -/

def BLOCK_SIZE : Nat := 512
def INODE_SIZE : Nat := 128
def INODES_PER_BLOCK : Nat := BLOCK_SIZE / INODE_SIZE
def SUPERBLOCK_BLOCK : Nat := 0
def INODE_BITMAP_BLOCK : Nat := 1
def DATA_BITMAP_BLOCK : Nat := 2
def INODE_TABLE_START_BLOCK : Nat := 3
def MAGIC_NUMBER : Nat := 0xDEADBEEF

/-- Little-endian byte encoding of `v` in `w` bytes (zerocopy `U64<LE>`,
`U32<LE>`, `U16<LE>`). -/
def encodeU : Nat → Nat → List Nat
  | 0, _ => []
  | w + 1, v => v % 256 :: encodeU w (v / 256)

/-- Little-endian byte decoding. -/
def decodeU : List Nat → Nat
  | [] => 0
  | b :: rest => b + 256 * decodeU rest

theorem encodeU_length : ∀ (w v : Nat), (encodeU w v).length = w := by
  intro w
  induction w with
  | zero => intro v; rfl
  | succ n ih => intro v; simp [encodeU, ih]

theorem decodeU_encodeU : ∀ (w v : Nat), v < 256 ^ w →
    decodeU (encodeU w v) = v := by
  intro w
  induction w with
  | zero =>
    intro v hv
    simp only [pow_zero, Nat.lt_one_iff] at hv
    simp [encodeU, decodeU, hv]
  | succ n ih =>
    intro v hv
    have hp : 256 ^ (n + 1) = 256 ^ n * 256 := pow_succ 256 n
    have hdiv : v / 256 < 256 ^ n := by omega
    rw [encodeU, decodeU, ih (v / 256) hdiv]
    omega

/-- In-memory `SuperBlock` from src/fs/layout.rs. -/
structure SuperBlock where
  total_blocks : Nat
  inode_bitmap_block : Nat
  data_bitmap_block : Nat
  inode_table_start_block : Nat
  inode_count : Nat
  data_block_start : Nat
  data_block_count : Nat
  magic_number : Nat
  deriving Repr, DecidableEq

/-- `DiskSuperBlock` serialization: the repr(C) little-endian 64-byte image
(`_pad0 = 0` at the tail). -/
def encodeSuperBlock (sb : SuperBlock) : List Nat :=
  encodeU 8 sb.total_blocks ++ encodeU 8 sb.inode_bitmap_block ++
    encodeU 8 sb.data_bitmap_block ++ encodeU 8 sb.inode_table_start_block ++
    encodeU 8 sb.inode_count ++ encodeU 8 sb.data_block_start ++
    encodeU 8 sb.data_block_count ++ encodeU 4 sb.magic_number ++ encodeU 4 0

/-- A block device on which reads return the last written data (the claims'
device model, an instance of the `BlockDevice` contract of
src/fs/block_dev.rs that never fails). -/
structure Disk where
  blocks : Nat → List Nat
  capacity : Nat

def Disk.read (d : Disk) (b : Nat) : List Nat := d.blocks b

def Disk.write (d : Disk) (b : Nat) (data : List Nat) : Disk :=
  { d with blocks := fun i => if i = b then data else d.blocks i }

/-- `FileSystemError` from src/fs/simple_fs.rs. -/
inductive FileSystemError where
  | FormatFailed
  | MountFailed
  | BlockError
  | NoSpace
  | NameTooLong
  | CorruptLayout
  | InvalidSuperBlock
  deriving Repr, DecidableEq

/-- The mounted filesystem handle `SFS` from src/fs/simple_fs.rs. -/
structure SFS where
  device : Disk
  superblock : SuperBlock

/-- `SFS::format` from src/fs/simple_fs.rs lines 27-69: compute the layout
from the capacity, write the superblock image at block 0 and zeroed bitmaps
at blocks 1 and 2 (on the modelled device the writes cannot fail). -/
def format (device : Disk) : SFS :=
  let capacity := device.capacity
  let inode_table_blocks := capacity / 10
  let inode_count := inode_table_blocks * INODES_PER_BLOCK
  let data_block_start := INODE_TABLE_START_BLOCK + inode_table_blocks
  let data_block_count := capacity - data_block_start
  let sb : SuperBlock :=
    { magic_number := MAGIC_NUMBER,
      total_blocks := capacity,
      inode_bitmap_block := INODE_BITMAP_BLOCK,
      data_bitmap_block := DATA_BITMAP_BLOCK,
      inode_table_start_block := INODE_TABLE_START_BLOCK,
      inode_count := inode_count,
      data_block_start := data_block_start,
      data_block_count := data_block_count }
  let superblock_buffer :=
    encodeSuperBlock sb ++ List.replicate (BLOCK_SIZE - 64) 0
  let d1 := device.write SUPERBLOCK_BLOCK superblock_buffer
  let d2 := d1.write INODE_BITMAP_BLOCK (List.replicate BLOCK_SIZE 0)
  let d3 := d2.write DATA_BITMAP_BLOCK (List.replicate BLOCK_SIZE 0)
  { device := d3, superblock := sb }

/-- A fresh 2048-block device holding zeroes. -/
def dev2048 : Disk := { blocks := fun _ => List.replicate 512 0, capacity := 2048 }

/-- The superblock contents C7 predicts for a 2048-block device. -/
def sbC7 : SuperBlock :=
  { total_blocks := 2048, inode_bitmap_block := 1, data_bitmap_block := 2,
    inode_table_start_block := 3, inode_count := 816, data_block_start := 207,
    data_block_count := 1841, magic_number := 0xDEADBEEF }

/-- C7: formatting a 2048-block device writes at block 0 the 64-byte
little-endian superblock with total_blocks 2048, bitmap blocks 1 and 2,
inode table at 3, inode_count 816 (= (2048/10) * 4 from inode_table_blocks
204), data_block_start 207, data_block_count 1841, and magic 0xDEADBEEF laid
down as bytes EF BE AD DE at byte offset 56. -/
theorem C7_format_2048_superblock :
    (format dev2048).superblock = sbC7 ∧
    2048 / 10 = 204 ∧
    sbC7.inode_count = 204 * INODES_PER_BLOCK ∧
    ((format dev2048).device.read 0).take 64 = encodeSuperBlock sbC7 ∧
    ((format dev2048).device.read 0).length = BLOCK_SIZE ∧
    (((format dev2048).device.read 0).drop 56).take 4 =
      [0xEF, 0xBE, 0xAD, 0xDE] := by
  decide

/-- `FileType` from src/fs/layout.rs (`mode` values 0/1/2). -/
inductive FileType where
  | Unknown
  | File
  | Directory
  deriving Repr, DecidableEq

def FileType.toU16 : FileType → Nat
  | FileType.Unknown => 0
  | FileType.File => 1
  | FileType.Directory => 2

/-- `TryFrom<u16> for FileType`. -/
def FileType.tryFromU16 : Nat → Option FileType
  | 0 => some FileType.Unknown
  | 1 => some FileType.File
  | 2 => some FileType.Directory
  | _ => none

theorem FileType.tryFromU16_toU16 (m : FileType) :
    FileType.tryFromU16 m.toU16 = some m := by
  cases m <;> rfl

/-- In-memory `Inode` from src/fs/layout.rs. -/
structure Inode where
  mode : FileType
  user_id : Nat
  group_id : Nat
  link_count : Nat
  size_in_bytes : Nat
  last_access_time : Nat
  last_modification_time : Nat
  creation_time : Nat
  direct_pointers : List Nat
  indirect_pointer : Nat
  deriving Repr, DecidableEq

/-- The value ranges the Rust field types (`u16`, `u64`, `[u64; 10]`)
guarantee; `256 ^ 2 = 2 ^ 16` and `256 ^ 8 = 2 ^ 64`. -/
def ValidInode (i : Inode) : Prop :=
  i.user_id < 256 ^ 2 ∧ i.group_id < 256 ^ 2 ∧ i.link_count < 256 ^ 2 ∧
  i.size_in_bytes < 256 ^ 8 ∧ i.last_access_time < 256 ^ 8 ∧
  i.last_modification_time < 256 ^ 8 ∧ i.creation_time < 256 ^ 8 ∧
  i.indirect_pointer < 256 ^ 8 ∧
  i.direct_pointers.length = 10 ∧ ∀ x ∈ i.direct_pointers, x < 256 ^ 8

instance (i : Inode) : Decidable (ValidInode i) := by
  unfold ValidInode
  infer_instance

/-- `DiskInode` serialization (`From<Inode> for DiskInode` followed by
`as_bytes`): the 128-byte little-endian repr(C) image — four u64 time/size
fields, ten direct pointers, the indirect pointer, then the four u16
fields. -/
def encodeInode (i : Inode) : List Nat :=
  encodeU 8 i.size_in_bytes ++ (encodeU 8 i.last_access_time ++
    (encodeU 8 i.last_modification_time ++ (encodeU 8 i.creation_time ++
    ((i.direct_pointers.map (encodeU 8)).flatten ++
    (encodeU 8 i.indirect_pointer ++ (encodeU 2 i.mode.toU16 ++
    (encodeU 2 i.user_id ++ (encodeU 2 i.group_id ++
    encodeU 2 i.link_count))))))))

/-- Reading `[U64<LE>; 10]` field by field. -/
def decodePtrs : Nat → List Nat → List Nat
  | 0, _ => []
  | k + 1, b => decodeU (b.take 8) :: decodePtrs k (b.drop 8)

/-- `DiskInode::ref_from_bytes` on an exactly 128-byte slice followed by
`TryFrom<DiskInode> for Inode`: read each little-endian field at its layout
offset (here sequentially, which is the same thing), with the `mode`
conversion the only fallible step. -/
def decodeInode (b : List Nat) : Option Inode :=
  if b.length = 128 then
    let p1 := b.splitAt 8
    let p2 := p1.2.splitAt 8
    let p3 := p2.2.splitAt 8
    let p4 := p3.2.splitAt 8
    let p5 := p4.2.splitAt 80
    let p6 := p5.2.splitAt 8
    let p7 := p6.2.splitAt 2
    let p8 := p7.2.splitAt 2
    let p9 := p8.2.splitAt 2
    match FileType.tryFromU16 (decodeU p7.1) with
    | none => none
    | some m =>
      some { mode := m,
             user_id := decodeU p8.1,
             group_id := decodeU p9.1,
             link_count := decodeU p9.2,
             size_in_bytes := decodeU p1.1,
             last_access_time := decodeU p2.1,
             last_modification_time := decodeU p3.1,
             creation_time := decodeU p4.1,
             direct_pointers := decodePtrs 10 p5.1,
             indirect_pointer := decodeU p6.1 }
  else none

theorem flatten_encodeU8_length : ∀ l : List Nat,
    ((l.map (encodeU 8)).flatten).length = 8 * l.length := by
  intro l
  induction l with
  | nil => rfl
  | cons p t ih =>
    simp only [List.map_cons, List.flatten_cons, List.length_append,
      encodeU_length, List.length_cons, ih]
    omega

theorem decodePtrs_flatten :
    ∀ l : List Nat, (∀ x ∈ l, x < 256 ^ 8) →
      decodePtrs l.length ((l.map (encodeU 8)).flatten) = l := by
  intro l
  induction l with
  | nil => intro _; rfl
  | cons p t ih =>
    intro hb
    have hp : p < 256 ^ 8 := hb p (by simp)
    have ht : ∀ x ∈ t, x < 256 ^ 8 := fun x hx => hb x (by simp [hx])
    simp only [List.map_cons, List.flatten_cons, List.length_cons]
    rw [decodePtrs, List.take_left' (encodeU_length 8 p),
      List.drop_left' (encodeU_length 8 p), decodeU_encodeU 8 p hp, ih ht]

theorem encodeInode_length (i : Inode)
    (hlen : i.direct_pointers.length = 10) :
    (encodeInode i).length = 128 := by
  simp only [encodeInode, List.length_append, encodeU_length,
    flatten_encodeU8_length, hlen]

theorem splitAt_of_append (f rest : List Nat) (w : Nat) (hw : f.length = w) :
    (f ++ rest).splitAt w = (f, rest) := by
  rw [List.splitAt_eq, List.take_left' hw, List.drop_left' hw]

/-- The inode round-trip: decoding an encoded in-range inode recovers it. -/
theorem decodeInode_encodeInode (i : Inode) (hv : ValidInode i) :
    decodeInode (encodeInode i) = some i := by
  obtain ⟨hu, hg, hl, hs, ha, hm, hc, hind, hlen, hbound⟩ := hv
  have h128 := encodeInode_length i hlen
  have hflat : ((i.direct_pointers.map (encodeU 8)).flatten).length = 80 := by
    rw [flatten_encodeU8_length, hlen]
  have hptr : decodePtrs 10 ((i.direct_pointers.map (encodeU 8)).flatten) =
      i.direct_pointers := by
    rw [← hlen]
    exact decodePtrs_flatten i.direct_pointers hbound
  have hmode : decodeU (encodeU 2 i.mode.toU16) = i.mode.toU16 :=
    decodeU_encodeU 2 _ (by cases i.mode <;> decide)
  rw [decodeInode, if_pos h128]
  conv in encodeInode i => rw [encodeInode]
  simp only [splitAt_of_append, encodeU_length, hflat, hptr, hmode,
    decodeU_encodeU 8 _ hs, decodeU_encodeU 8 _ ha,
    decodeU_encodeU 8 _ hm, decodeU_encodeU 8 _ hc,
    decodeU_encodeU 8 _ hind, decodeU_encodeU 2 _ hu,
    decodeU_encodeU 2 _ hg, decodeU_encodeU 2 _ hl,
    FileType.tryFromU16_toU16]

/-- `SFS::read_inode` from src/fs/simple_fs.rs lines 139-162: read the
containing block at `inode_table_start + idx/4` and deserialize the 128
bytes at offset `(idx%4)*128` (deserialization failure is a `BlockError`). -/
def read_inode (fs : SFS) (inode_index : Nat) : Except FileSystemError Inode :=
  let block_num :=
    fs.superblock.inode_table_start_block + inode_index / INODES_PER_BLOCK
  let offset_in_block := inode_index % INODES_PER_BLOCK * INODE_SIZE
  let buffer := fs.device.read block_num
  match decodeInode ((buffer.drop offset_in_block).take INODE_SIZE) with
  | some i => Except.ok i
  | none => Except.error FileSystemError.BlockError

/-- `SFS::write_inode` from src/fs/simple_fs.rs lines 164-195:
read-modify-write of the containing block, overwriting the 128-byte slice at
offset `(idx%4)*128`. -/
def write_inode (fs : SFS) (inode : Inode) (inode_idx : Nat) : SFS :=
  let block_num :=
    fs.superblock.inode_table_start_block + inode_idx / INODES_PER_BLOCK
  let offset_in_block := inode_idx % INODES_PER_BLOCK * INODE_SIZE
  let buffer := fs.device.read block_num
  let buffer2 := buffer.take offset_in_block ++ (encodeInode inode ++
    buffer.drop (offset_in_block + INODE_SIZE))
  { fs with device := fs.device.write block_num buffer2 }

theorem Disk.read_write_self (d : Disk) (bn : Nat) (data : List Nat) :
    (d.write bn data).read bn = data := by
  simp [Disk.write, Disk.read]

theorem Disk.read_write_other (d : Disk) (bn b : Nat) (data : List Nat)
    (hb : b ≠ bn) : (d.write bn data).read b = d.read b := by
  simp [Disk.write, Disk.read, hb]

/-- C8: the 128-byte inode encoding round-trips, and on a device whose reads
return the last written data, `write_inode` followed by `read_inode` returns
the same inode; both operations address block `inode_table_start + idx/4`,
the write replacing exactly the 128 bytes at offset `(idx%4)*128` of that
block and touching no other block. -/
theorem C8_inode_roundtrip (i : Inode) (idx : Nat) (fs : SFS)
    (hv : ValidInode i)
    (hblk : (fs.device.read
      (fs.superblock.inode_table_start_block + idx / 4)).length = 512) :
    decodeInode (encodeInode i) = some i ∧
    (encodeInode i).length = 128 ∧
    read_inode (write_inode fs i idx) idx = Except.ok i ∧
    (write_inode fs i idx).device.read
        (fs.superblock.inode_table_start_block + idx / 4) =
      (fs.device.read (fs.superblock.inode_table_start_block + idx / 4)).take
          (idx % 4 * 128) ++
        (encodeInode i ++
          (fs.device.read
            (fs.superblock.inode_table_start_block + idx / 4)).drop
            (idx % 4 * 128 + 128)) ∧
    (∀ b, b ≠ fs.superblock.inode_table_start_block + idx / 4 →
      (write_inode fs i idx).device.read b = fs.device.read b) := by
  have hlen10 : i.direct_pointers.length = 10 := hv.2.2.2.2.2.2.2.2.1
  have h128 := encodeInode_length i hlen10
  have hrt := decodeInode_encodeInode i hv
  have hoff : idx % 4 * 128 ≤ 512 := by
    have h4 : idx % 4 < 4 := Nat.mod_lt idx (by norm_num)
    omega
  have htakelen : ((fs.device.read
      (fs.superblock.inode_table_start_block + idx / 4)).take
      (idx % 4 * 128)).length = idx % 4 * 128 := by
    rw [List.length_take]
    omega
  refine ⟨hrt, h128, ?_, ?_, ?_⟩
  · rw [read_inode]
    simp only [write_inode, INODES_PER_BLOCK, INODE_SIZE, BLOCK_SIZE]
    rw [Disk.read_write_self]
    rw [List.drop_left' htakelen, List.take_left' h128, hrt]
  · simp only [write_inode, INODES_PER_BLOCK, INODE_SIZE, BLOCK_SIZE]
    rw [Disk.read_write_self]
  · intro b hb
    simp only [write_inode, INODES_PER_BLOCK, INODE_SIZE, BLOCK_SIZE]
    rw [Disk.read_write_other]
    exact hb


/-- A concrete filesystem whose blocks are all zero, with the 2048-block
superblock. -/
def fsZero : SFS :=
  { device := { blocks := fun _ => List.replicate 512 0, capacity := 2048 },
    superblock := sbC7 }

def inodeW : Inode :=
  { mode := FileType.File, user_id := 1, group_id := 2, link_count := 1,
    size_in_bytes := 5, last_access_time := 6, last_modification_time := 7,
    creation_time := 8, direct_pointers := [9, 0, 0, 0, 0, 0, 0, 0, 0, 0],
    indirect_pointer := 0 }

/-- Closed instance of C8 at inode index 5 on an all-zero device. -/
theorem C8_inode_roundtrip_witness :
    decodeInode (encodeInode inodeW) = some inodeW ∧
    (encodeInode inodeW).length = 128 ∧
    read_inode (write_inode fsZero inodeW 5) 5 = Except.ok inodeW ∧
    (write_inode fsZero inodeW 5).device.read (3 + 5 / 4) =
      (fsZero.device.read (3 + 5 / 4)).take (5 % 4 * 128) ++
        (encodeInode inodeW ++
          (fsZero.device.read (3 + 5 / 4)).drop (5 % 4 * 128 + 128)) ∧
    (∀ b, b ≠ 3 + 5 / 4 →
      (write_inode fsZero inodeW 5).device.read b = fsZero.device.read b) :=
  C8_inode_roundtrip inodeW 5 fsZero (by decide) (by decide)

/-- `Bitmap::is_set` from src/fs/layout.rs: LSB-first bit test inside the
byte at `idx / 8`. -/
def bitmap_is_set (m : List Nat) (idx : Nat) : Bool :=
  (m.getD (idx / 8) 0) &&& (1 <<< (idx % 8)) != 0

/-- `BitmapError` from src/fs/layout.rs. -/
inductive BitmapError where
  | AlreadyAllocated
  | AlreadyCleared
  deriving Repr, DecidableEq

/-- `Bitmap::set`. -/
def bitmap_set (m : List Nat) (idx : Nat) : Except BitmapError (List Nat) :=
  if bitmap_is_set m idx then Except.error BitmapError.AlreadyAllocated
  else Except.ok (m.set (idx / 8) ((m.getD (idx / 8) 0) ||| (1 <<< (idx % 8))))

/-- The inner bit scan of `Bitmap::find_and_set_first_free`: first bit of
0..8 clear in `byte`. -/
def findFreeBitInByte (byte : Nat) : Option Nat :=
  (List.range 8).find? (fun bit => byte &&& (1 <<< bit) == 0)

/-- The byte loop of `Bitmap::find_and_set_first_free` from
src/fs/layout.rs lines 219-236: skip fully-allocated (0xFF) bytes, find the
first clear bit, set it and return its index (a failing `set` aborts with
`none` via the `?` operator). -/
def findSetAux (m : List Nat) : Nat → List Nat → Option (List Nat × Nat)
  | _, [] => none
  | byteIdx, byte :: rest =>
    if byte ≠ 255 then
      match findFreeBitInByte byte with
      | some bit =>
        match bitmap_set m (byteIdx * 8 + bit) with
        | Except.ok m2 => some (m2, byteIdx * 8 + bit)
        | Except.error _ => none
      | none => findSetAux m (byteIdx + 1) rest
    else findSetAux m (byteIdx + 1) rest

def find_and_set_first_free (m : List Nat) : Option (List Nat × Nat) :=
  findSetAux m 0 m

/-- `SFS::allocate_inode` from src/fs/simple_fs.rs lines 93-116: read the
inode bitmap block (block 1), find-and-set the first free bit over the whole
512-byte block, write the bitmap back, and return the bit index.  The only
bound on the returned index is the bitmap block size (4096 bits); the
superblock's `inode_count` is never consulted. -/
def allocate_inode (fs : SFS) : Except FileSystemError (SFS × Nat) :=
  let bitmap_buffer := fs.device.read INODE_BITMAP_BLOCK
  match find_and_set_first_free bitmap_buffer with
  | none => Except.error FileSystemError.NoSpace
  | some (buf, idx) =>
    Except.ok
      ({ fs with
          device := fs.device.write fs.superblock.inode_bitmap_block buf },
        idx)

theorem byte_255_no_free_bit (bit : Nat) (hbit : bit < 8) :
    (255 : Nat) &&& (1 <<< bit) ≠ 0 := by
  interval_cases bit <;> decide

/-- If the byte scan fails, every bit of every scanned byte is set. -/
theorem findSetAux_none_all_set (m : List Nat) :
    ∀ (rest : List Nat) (byteIdx : Nat),
      rest = m.drop byteIdx →
      findSetAux m byteIdx rest = none →
      ∀ j bit, j < rest.length → bit < 8 →
        (rest.getD j 0) &&& (1 <<< bit) ≠ 0 := by
  intro rest
  induction rest with
  | nil =>
    intro byteIdx _ _ j bit hj _
    simp at hj
  | cons byte rest2 ih =>
    intro byteIdx hinv hnone j bit hj hbit
    have hhead : m.getD byteIdx 0 = byte := by
      have h0 : (m.drop byteIdx)[0]? = some byte := by
        rw [← hinv]
        simp
      rw [List.getElem?_drop, Nat.add_zero] at h0
      rw [List.getD, List.get?_eq_getElem?, h0]
      rfl
    have hinv2 : rest2 = m.drop (byteIdx + 1) := by
      have hd : m.drop (byteIdx + 1) = (m.drop byteIdx).drop 1 := by
        rw [List.drop_drop, Nat.add_comm]
      rw [hd, ← hinv, List.drop_one, List.tail_cons]
    rw [findSetAux] at hnone
    by_cases h255 : byte = 255
    · rw [if_neg (by simp [h255])] at hnone
      match j, hj with
      | 0, _ =>
        simpa [h255] using byte_255_no_free_bit bit hbit
      | j' + 1, hj =>
        exact ih (byteIdx + 1) hinv2 hnone j' bit (by simpa using hj) hbit
    · rw [if_pos h255] at hnone
      cases hfind : findFreeBitInByte byte with
      | some bitF =>
        exfalso
        have hclear : byte &&& (1 <<< bitF) = 0 := by
          have := List.find?_some (p := fun bit => byte &&& (1 <<< bit) == 0)
            hfind
          simpa using this
        have hbitF8 : bitF < 8 := by
          have := List.mem_of_find?_eq_some hfind
          simp [List.mem_range] at this
          exact this
        have hsetok : bitmap_set m (byteIdx * 8 + bitF) =
            Except.ok (m.set ((byteIdx * 8 + bitF) / 8)
              ((m.getD ((byteIdx * 8 + bitF) / 8) 0) |||
                (1 <<< ((byteIdx * 8 + bitF) % 8)))) := by
          rw [bitmap_set, if_neg]
          rw [bitmap_is_set]
          have hdiv : (byteIdx * 8 + bitF) / 8 = byteIdx := by omega
          have hmod : (byteIdx * 8 + bitF) % 8 = bitF := by omega
          rw [hdiv, hmod, hhead, hclear]
          simp
        simp only [hfind, hsetok] at hnone
        exact Option.noConfusion hnone
      | none =>
        rw [hfind] at hnone
        match j, hj with
        | 0, _ =>
          intro hzero
          have hall := List.find?_eq_none.mp hfind
          have hmem : bit ∈ List.range 8 := by simp [hbit]
          have := hall bit hmem
          simp at this
          simp at hzero
          exact this hzero
        | j' + 1, hj =>
          exact ih (byteIdx + 1) hinv2 hnone j' bit (by simpa using hj) hbit

/-- `n + 1` successive `allocate_inode` calls, returning the last result. -/
def allocN : Nat → SFS → Except FileSystemError (SFS × Nat)
  | 0, fs => allocate_inode fs
  | n + 1, fs =>
    match allocate_inode fs with
    | Except.ok (fs2, _) => allocN n fs2
    | Except.error e => Except.error e

def allocResultIdx : Except FileSystemError (SFS × Nat) → Option Nat
  | Except.ok (_, i) => some i
  | Except.error _ => none

/-- The freshly formatted 2048-block filesystem (`inode_count = 816`). -/
def fs2048 : SFS := format dev2048

/-- C10: `allocate_inode` returns `NoSpace` only when all 4096 bits of the
512-byte inode bitmap are set, and it never bounds the result by the
superblock's `inode_count`: on the formatted 2048-block filesystem
(`inode_count = 816 < 4096`) the 817 successive calls all succeed and the
817th returns index 816 ≥ `inode_count` instead of `NoSpace`. -/
theorem C10_allocate_inode_ignores_inode_count (fs : SFS)
    (hlen : (fs.device.read 1).length = 512)
    (hNoSpace : allocate_inode fs = Except.error FileSystemError.NoSpace) :
    (∀ k, k < 4096 → bitmap_is_set (fs.device.read 1) k = true) ∧
    fs2048.superblock.inode_count = 816 ∧
    816 < 4096 ∧
    allocResultIdx (allocN 816 fs2048) = some 816 := by
  refine ⟨?_, rfl, by omega, by decide⟩
  intro k hk
  have hfind : find_and_set_first_free (fs.device.read 1) = none := by
    simp only [allocate_inode, INODE_BITMAP_BLOCK] at hNoSpace
    cases hf : find_and_set_first_free (fs.device.read 1) with
    | none => rfl
    | some r =>
      rcases r with ⟨buf, idx⟩
      simp only [hf] at hNoSpace
      exact Except.noConfusion hNoSpace
  rw [find_and_set_first_free] at hfind
  have hall := findSetAux_none_all_set (fs.device.read 1) (fs.device.read 1) 0
    (List.drop_zero _).symm hfind
  have h2 := hall (k / 8) (k % 8) (by rw [hlen]; omega) (by omega)
  simp only [bitmap_is_set, bne_iff_ne, ne_eq]
  simpa using h2

/-- Closed instance of C10's universal part: on a filesystem whose inode
bitmap block is entirely 0xFF, `allocate_inode` indeed reports `NoSpace` and
every bit is set. -/
def fsFull : SFS :=
  { device := { blocks := fun b => if b = 1 then List.replicate 512 255
      else List.replicate 512 0, capacity := 2048 },
    superblock := sbC7 }

theorem C10_allocate_inode_ignores_inode_count_witness :
    (∀ k, k < 4096 → bitmap_is_set (fsFull.device.read 1) k = true) ∧
    fs2048.superblock.inode_count = 816 ∧
    816 < 4096 ∧
    allocResultIdx (allocN 816 fs2048) = some 816 :=
  C10_allocate_inode_ignores_inode_count fsFull (by decide) (by rfl)

/-- Modelled from the spec: the directory-entry constants used by
src/fs/simple_fs.rs (`DIR_ENTRY_SIZE`, `DIR_NAME_MAX`, `DIRENT_USED`,
`DIR_ENTRIES_PER_BLOCK`) are not defined in the provided sources; per §3 the
entry layout `{ inode: u64, name_len: u16, flags: u16, name: [u8; N] }` is
padded to a power-of-two entry size, fixed here at 64 bytes, giving a
52-byte name field and 8 entries per 512-byte block, with `flags & 1 =
USED`. -/
def DIR_ENTRY_SIZE : Nat := 64

/-- Modelled from the spec: maximum name length, 64 - 12 header bytes. -/
def DIR_NAME_MAX : Nat := 52

/-- Modelled from the spec: `flags & 1 = USED`. -/
def DIRENT_USED : Nat := 1

/-- Modelled from the spec: 512 / 64 entries per directory block. -/
def DIR_ENTRIES_PER_BLOCK : Nat := 8

/-- Modelled from the spec: a decoded directory entry (`DiskDirEntry` is not
in the provided sources). -/
structure DiskDirEntry where
  inode : Nat
  name_len : Nat
  flags : Nat
  name : List Nat
  deriving Repr, DecidableEq

/-- Modelled from the spec: decode one 64-byte little-endian entry
(`DirEntryBlock`'s per-slot view). -/
def decodeDirEntry (b : List Nat) : DiskDirEntry :=
  { inode := decodeU (b.take 8),
    name_len := decodeU ((b.drop 8).take 2),
    flags := decodeU ((b.drop 10).take 2),
    name := (b.drop 12).take DIR_NAME_MAX }

/-- The 64-byte entry image built by `write_dirent_into_block`
(src/fs/simple_fs.rs lines 200-230): inode, name_len, flags = USED, then the
name buffer — initialised with the literal `08` (the byte value eight, a
typo for `0u8` kept faithfully) and overwritten with the name bytes. -/
def encodeDirEntry (inode : Nat) (name : List Nat) : List Nat :=
  encodeU 8 inode ++ (encodeU 2 name.length ++ (encodeU 2 DIRENT_USED ++
    (name ++ List.replicate (DIR_NAME_MAX - name.length) 8)))

/-- `SFS::write_dirent_into_block`: splice the encoded entry into slot
`slot` of the block buffer. -/
def write_dirent_into_block (block : List Nat) (slot : Nat) (inode : Nat)
    (name : List Nat) : Except FileSystemError (List Nat) :=
  if name.length > DIR_NAME_MAX then Except.error FileSystemError.NameTooLong
  else Except.ok (block.take (slot * DIR_ENTRY_SIZE) ++
    (encodeDirEntry inode name ++
      block.drop (slot * DIR_ENTRY_SIZE + DIR_ENTRY_SIZE)))

/-- The collision-and-free-slot scan of `create_file_in_root`
(src/fs/simple_fs.rs lines 356-370): walk all entries in slot order; a used
entry whose first `name_len` name bytes equal the argument aborts with
`CorruptLayout` (the comment says to surface it as `FileExists` at the call
site); the first non-used slot index is remembered; no free slot is
`NoSpace`. -/
def scanDir (name : List Nat) :
    List DiskDirEntry → Nat → Option Nat → Except FileSystemError Nat
  | [], _, none => Except.error FileSystemError.NoSpace
  | [], _, some s => Except.ok s
  | entry :: rest, i, acc =>
    if entry.flags &&& DIRENT_USED ≠ 0 then
      if entry.name.take entry.name_len = name then
        Except.error FileSystemError.CorruptLayout
      else scanDir name rest (i + 1) acc
    else
      scanDir name rest (i + 1) (if acc.isNone then some i else acc)

/-- `SFS::create_file_in_root` from src/fs/simple_fs.rs lines 333-397:
validate the name, read root inode 0 (must be a directory with a first data
block), read that block, scan for a collision / free slot, then allocate an
inode, persist it as an empty file and persist the updated directory
block.  On any error the filesystem state is unchanged (no write precedes an
error return). -/
def create_file_in_root (fs : SFS) (name : List Nat) :
    Except FileSystemError (SFS × Nat × Nat) :=
  if name.length > DIR_NAME_MAX ∨ name.length = 0 then
    Except.error FileSystemError.NameTooLong
  else
    match read_inode fs 0 with
    | Except.error e => Except.error e
    | Except.ok root =>
      if root.mode ≠ FileType.Directory then
        Except.error FileSystemError.CorruptLayout
      else
        let dir_block := root.direct_pointers.getD 0 0
        if dir_block = 0 then Except.error FileSystemError.CorruptLayout
        else
          let buf := fs.device.read dir_block
          let entries := (List.range DIR_ENTRIES_PER_BLOCK).map
            (fun k => decodeDirEntry
              ((buf.drop (k * DIR_ENTRY_SIZE)).take DIR_ENTRY_SIZE))
          match scanDir name entries 0 none with
          | Except.error e => Except.error e
          | Except.ok slot_index =>
            match allocate_inode fs with
            | Except.error e => Except.error e
            | Except.ok (fs1, inode_index) =>
              let new_inode : Inode :=
                { mode := FileType.File, user_id := 0, group_id := 0,
                  link_count := 1, size_in_bytes := 0, last_access_time := 0,
                  last_modification_time := 0, creation_time := 0,
                  direct_pointers := List.replicate 10 0,
                  indirect_pointer := 0 }
              let fs2 := write_inode fs1 new_inode inode_index
              match write_dirent_into_block buf slot_index inode_index
                  name with
              | Except.error e => Except.error e
              | Except.ok buf2 =>
                Except.ok ({ fs2 with
                  device := fs2.device.write dir_block buf2 },
                  inode_index, dir_block)

/-- `FileError` from src/fs/simple_fs.rs. -/
inductive FileError where
  | BlockReadError
  | DirectoryFull
  | BlockWriteError
  | FileNotFound
  | FileExists
  | CreationFailed
  | NoSpace
  | InvalidHandle
  | InvalidName
  | Corrupt
  deriving Repr, DecidableEq

/-- `FileSystem::create_file` for `SFS` (src/fs/simple_fs.rs lines 445-458):
run `create_file_in_root` and translate the internal error — NameTooLong to
InvalidName, NoSpace to NoSpace, CorruptLayout to Corrupt (not FileExists),
anything else to CreationFailed. -/
def create_file (fs : SFS) (name : List Nat) : Except FileError (SFS × Nat) :=
  match create_file_in_root fs name with
  | Except.ok (fs2, idx, _) => Except.ok (fs2, idx)
  | Except.error FileSystemError.NameTooLong =>
    Except.error FileError.InvalidName
  | Except.error FileSystemError.NoSpace => Except.error FileError.NoSpace
  | Except.error FileSystemError.CorruptLayout =>
    Except.error FileError.Corrupt
  | Except.error _ => Except.error FileError.CreationFailed

/-- "hello.txt" as bytes. -/
def nameHello : List Nat := [104, 101, 108, 108, 111, 46, 116, 120, 116]

/-- Root inode: a directory whose first data block is 207. -/
def rootInodeC6 : Inode :=
  { mode := FileType.Directory, user_id := 0, group_id := 0, link_count := 2,
    size_in_bytes := 0, last_access_time := 0, last_modification_time := 0,
    creation_time := 0, direct_pointers := [207, 0, 0, 0, 0, 0, 0, 0, 0, 0],
    indirect_pointer := 0 }

/-- Root directory block: `.` and `..` (inode 0) and a used entry
"hello.txt" (inode 1), remaining five slots free. -/
def dirBlockC6 : List Nat :=
  encodeDirEntry 0 [46] ++ (encodeDirEntry 0 [46, 46] ++
    (encodeDirEntry 1 nameHello ++ List.replicate 320 0))

/-- The filesystem state of claim C6: a formatted 2048-block device whose
root directory already contains "hello.txt". -/
def fsC6 : SFS :=
  { device := { blocks := fun b =>
      if b = 3 then encodeInode rootInodeC6 ++ List.replicate 384 0
      else if b = 207 then dirBlockC6
      else List.replicate 512 0, capacity := 2048 },
    superblock := sbC7 }

/-- C6: the claim says a `create_file` whose name collides with a used root
directory entry returns the `FileExists` error.  The code detects the
collision before allocating any inode or writing anything, but returns the
internal `CorruptLayout`, which `create_file` maps to `FileError::Corrupt` —
not `FileExists`. -/
theorem C6_create_file_collision_is_corrupt_not_file_exists :
    create_file fsC6 nameHello = Except.error FileError.Corrupt ∧
    FileError.Corrupt ≠ FileError.FileExists := by
  exact ⟨rfl, by decide⟩

end BlogOS
